import Mathlib

/-!
Shallow embedding of src/lambda_function.py: a pipeline that fetches
end-of-day market quotes, archives them as a dated CSV in object storage,
and loads them into a MySQL table.

Cell values (prices, volumes, timestamps) are kept abstract in a type
parameter V; their textual rendering is a parameter fmt : V → String.
External collaborators (the yfinance quote provider, the S3 client, the
MySQL connector, the secrets store, the wall clock) are parameters of the
embedded functions; the I/O they perform is recorded as explicit effect
values (PutObject, DbOp, sleep lists).
-/

namespace LambdaFn

/-- One row of the merged DataFrame built by get_market_value: columns
fecha (trade date), cotizacion (adjusted close), volumen (volume),
moneda (ticker symbol), in that column order (line 172 of the source). -/
structure QuoteRecord (V : Type) where
  fecha : V
  cotizacion : V
  volumen : V
  moneda : String
  deriving Repr, DecidableEq

/-- The single most recent daily bar returned by the quote provider for
one ticker: the two columns the code keeps (Adj Close, Volume) plus the
index date. -/
structure Bar (V : Type) where
  date : V
  adjClose : V
  volume : V
  deriving Repr, DecidableEq

/-- The per-ticker body of the loop in get_market_value (lines 153-175):
download the bar, select Adj Close and Volume, rename to cotizacion and
volumen, add fecha from the index and moneda from the ticker, reorder the
columns to (fecha, cotizacion, volumen, moneda). An empty download yields
an empty per-ticker frame, modelled as none. -/
def fetchTicker (provider : String → Option (Bar V)) (moneda : String) :
    Option (QuoteRecord V) :=
  (provider moneda).map fun b =>
    { fecha := b.date, cotizacion := b.adjClose, volumen := b.volume,
      moneda := moneda }

/-- Insertion into a Python dict modelled as an association list: an
existing key is updated in place, a new key is appended (Python dicts
preserve insertion order). -/
def dictInsert (k : String) (v : α) : List (String × α) → List (String × α)
  | [] => [(k, v)]
  | (k₁, v₁) :: rest =>
      if k₁ = k then (k, v) :: rest else (k₁, v₁) :: dictInsert k v rest

/-- The dict dataframes_por_moneda after the loop of get_market_value has
run over the given ticker list (lines 150-175). -/
def framesByMoneda (provider : String → Option (Bar V))
    (tickers : List String) : List (String × Option (QuoteRecord V)) :=
  tickers.foldl (fun d m => dictInsert m (fetchTicker provider m) d) []

/-- get_market_value with its ticker list abstracted: build the per-ticker
frames in a dict, take the dict values in insertion order, and concatenate
them (pd.concat, line 180); a none value is an empty frame and contributes
no row. -/
def getMarketValueFrom (provider : String → Option (Bar V))
    (tickers : List String) : List (QuoteRecord V) :=
  ((framesByMoneda provider tickers).map Prod.snd).filterMap id

/-- The hard-coded ticker list of get_market_value (line 147). -/
def tickers : List String := ["BTC-USD", "ETH-USD", "^GSPC", "^IXIC", "GC=F"]

/-- get_market_value (lines 139-182): it takes no symbol-list input; the
only free input is the external quote provider. -/
def get_market_value (provider : String → Option (Bar V)) :
    List (QuoteRecord V) :=
  getMarketValueFrom provider tickers

/-- One observable operation performed by insert_data on the database
connection or its cursor. -/
inductive DbOp (V : Type) where
  | execute (query : String) (vals : V × String × V × V)
  | commit
  | closeCursor
  deriving Repr, DecidableEq

/-- The parameterized insert statement of insert_data (line 30), with the
table name spliced in. -/
def insertQuery (table : String) : String :=
  "INSERT INTO " ++ table ++
    " (fecha, moneda, Cotizacion, volumen) VALUES (%s, %s, %s, %s)"

/-- The bound value tuple data_moneda for one row (lines 37-42):
(fecha, moneda, cotizacion, volumen). -/
def bindOf (r : QuoteRecord V) : V × String × V × V :=
  (r.fecha, r.moneda, r.cotizacion, r.volumen)

/-- The cursor.execute calls of the row loop of insert_data
(lines 36-43), one per row in DataFrame order. -/
def insertRows (query : String) : List (QuoteRecord V) → List (DbOp V)
  | [] => []
  | r :: rest => DbOp.execute query (bindOf r) :: insertRows query rest

/-- insert_data (lines 16-49): execute one parameterized insert per row,
then cnx.commit(), then cursor.close(). The returned list is the ordered
trace of operations on the connection. -/
def insert_data (table : String) (rs : List (QuoteRecord V)) : List (DbOp V) :=
  insertRows (insertQuery table) rs ++ [DbOp.commit, DbOp.closeCursor]

/-! ## Archiver: CSV serialization (save_in_bucket, lines 116-137)

pandas DataFrame.to_csv with index=False writes one header line naming the
columns in DataFrame order, then one line per row; fields are separated by
commas and every line (the last included) is terminated by a newline.
The serializer below is written on character lists; the parser used for the
round-trip property splits them back. -/

/-- Join field character lists with a separator character between
consecutive fields (the comma placement of one CSV line). -/
def joinSep (c : Char) : List (List Char) → List Char
  | [] => []
  | [f] => f
  | f :: g :: rest => f ++ c :: joinSep c (g :: rest)

/-- Split a character list at every occurrence of the separator; inverse
direction of joinSep. -/
def splitOnSep (c : Char) : List Char → List (List Char)
  | [] => [[]]
  | x :: xs =>
      if x = c then [] :: splitOnSep c xs
      else
        match splitOnSep c xs with
        | [] => [[x]]
        | y :: ys => (x :: y) :: ys

/-- The header of the merged DataFrame: its column names in the order set
at line 172. -/
def csvHeader : List String := ["fecha", "cotizacion", "volumen", "moneda"]

/-- The textual fields of one CSV row, in DataFrame column order
(fecha, cotizacion, volumen, moneda), with the value cells rendered by
fmt. moneda is already a string and is written as is. -/
def rowFields (fmt : V → String) (r : QuoteRecord V) : List String :=
  [fmt r.fecha, fmt r.cotizacion, fmt r.volumen, r.moneda]

/-- One newline-terminated CSV line from its fields. -/
def csvLine (fields : List String) : List Char :=
  joinSep ',' (fields.map String.toList) ++ ['\n']

/-- The full CSV text produced by merged_data.to_csv(csv_buffer,
index=False) at line 128: header line then one line per row. -/
def toCsv (fmt : V → String) (rs : List (QuoteRecord V)) : String :=
  String.mk (csvLine csvHeader ++ (rs.map fun r => csvLine (rowFields fmt r)).flatten)

/-- Reading the CSV text back as delimited text: split into lines,
drop the trailing empty fragment left by the final newline, drop the
header line, split each remaining line at commas. -/
def parseCsv (s : String) : List (List String) :=
  ((if (splitOnSep '\n' s.toList).getLast? = some [] then
      (splitOnSep '\n' s.toList).dropLast
    else splitOnSep '\n' s.toList).drop 1).map
    fun ln => (splitOnSep ',' ln).map String.mk

/-- Rebuild a string-valued QuoteRecord from one parsed CSV row, reading
the fields in the archived column order. -/
def recordOfRow (row : List String) : QuoteRecord String :=
  { fecha := row.getD 0 "", cotizacion := row.getD 1 "",
    volumen := row.getD 2 "", moneda := row.getD 3 "" }

/-- A record with its value cells rendered to text, fields otherwise
unchanged. -/
def renderRecord (fmt : V → String) (r : QuoteRecord V) : QuoteRecord String :=
  { fecha := fmt r.fecha, cotizacion := fmt r.cotizacion,
    volumen := fmt r.volumen, moneda := r.moneda }

/-- A field is CSV-clean when its text contains neither the comma nor the
newline separator (pandas would quote such fields; none of the pipeline's
numeric, date or ticker texts contain them). -/
def fieldClean (f : String) : Bool :=
  f.toList.all fun ch => ch ≠ ',' && ch ≠ '\n'

/-- All fields of every row of the collection are CSV-clean. -/
def recordsClean (fmt : V → String) (rs : List (QuoteRecord V)) : Bool :=
  rs.all fun r => (rowFields fmt r).all fieldClean

/-! ## Archiver: wall-clock key (save_in_bucket, line 136) -/

/-- A naive local datetime as produced by datetime.now(). -/
structure Datetime where
  year : Nat
  month : Nat
  day : Nat
  hour : Nat
  minute : Nat
  second : Nat
  deriving Repr, DecidableEq

/-- Gregorian leap-year rule. -/
def isLeap (y : Nat) : Bool :=
  (y % 4 = 0 && y % 100 ≠ 0) || y % 400 = 0

/-- Number of days in a month of a given year. -/
def daysInMonth (y m : Nat) : Nat :=
  if m = 2 then (if isLeap y then 29 else 28)
  else if m = 4 || m = 6 || m = 9 || m = 11 then 30
  else 31

/-- datetime.now() - timedelta(days=1): the time of day is unchanged and
the calendar date moves one day back, borrowing across month and year
boundaries. -/
def subOneDay (t : Datetime) : Datetime :=
  if t.day > 1 then { t with day := t.day - 1 }
  else if t.month > 1 then
    { t with month := t.month - 1, day := daysInMonth t.year (t.month - 1) }
  else
    { t with year := t.year - 1, month := 12, day := 31 }

/-- Decimal rendering of n left-padded with zeros to width w. -/
def padZeros (w n : Nat) : String :=
  String.mk (List.replicate (w - (toString n).length) '0') ++ toString n

/-- strftime with format %Y-%m-%d. -/
def strftimeYmd (t : Datetime) : String :=
  padZeros 4 t.year ++ "-" ++ padZeros 2 t.month ++ "-" ++ padZeros 2 t.day

/-- The single s3 put_object call made by save_in_bucket. -/
structure PutObject where
  body : String
  bucket : String
  key : String
  deriving Repr, DecidableEq

/-- save_in_bucket (lines 116-137): serialize the DataFrame with to_csv
and put it to the BUCKET_DEST bucket under yesterday's date (relative to
the wall clock now) formatted %Y-%m-%d, with extension .csv. -/
def save_in_bucket (bucket : String) (now : Datetime) (fmt : V → String)
    (merged_data : List (QuoteRecord V)) : PutObject :=
  { body := toCsv fmt merged_data, bucket := bucket,
    key := strftimeYmd (subOneDay now) ++ ".csv" }

/-! ## Database Writer: connection retry loop (connect_to_mysql,
lines 69-114) -/

/-- A Python exception that escapes the retry loop. The retry-log f-string
at line 109 references the undefined name attemps, so building it raises
NameError. -/
inductive PyError where
  | nameError (name : String)
  deriving Repr, DecidableEq

/-- Outcome of connect_to_mysql: either an uncaught exception or the
Python return value (a connection or None), together with the list of
time.sleep durations performed, in order. -/
structure ConnectOutcome (C : Type) where
  result : Except PyError (Option C)
  sleeps : List Nat
  deriving Repr

/-- One pass of the while loop of connect_to_mysql starting at the given
attempt number (lines 96-113). connector n is the result of the n-th
mysql.connector.connect call (none = it raised a caught connector error).
On a caught failure with attempt = attempts the function returns None
(lines 104-107); on a caught failure with attempt < attempts the retry
log message at line 109 evaluates the undefined name attemps and raises
NameError before the time.sleep at line 112 runs, so the loop never
reaches a second iteration. -/
def connectLoop (connector : Nat → Option C) (attempts delay attempt : Nat) :
    ConnectOutcome C :=
  if attempt < attempts + 1 then
    match connector attempt with
    | some cnx => { result := Except.ok (some cnx), sleeps := [] }
    | none =>
        if attempt = attempts then { result := Except.ok none, sleeps := [] }
        else { result := Except.error (PyError.nameError "attemps"), sleeps := [] }
  else { result := Except.ok none, sleeps := [] }

/-- Default attempts parameter of connect_to_mysql (line 69). -/
def defaultAttempts : Nat := 3

/-- Default delay parameter of connect_to_mysql (line 70). -/
def defaultDelay : Nat := 2

/-- connect_to_mysql (lines 69-114): run the retry loop from attempt 1. -/
def connect_to_mysql (connector : Nat → Option C) (attempts delay : Nat) :
    ConnectOutcome C :=
  connectLoop connector attempts delay 1

/-- The retry loop as the spec describes its intent (section 4.4 and the
section 9 note that the undefined attemps in the log line is a
transcription slip whose intended reading is the loop's own counter):
on a failure with attempt < attempts, sleep delay ^ attempt and move to
the next attempt. Used to state what the code diverges from. -/
def connectLoopIntended (connector : Nat → Option C)
    (attempts delay attempt : Nat) : ConnectOutcome C :=
  if h : attempt < attempts + 1 then
    match connector attempt with
    | some cnx => { result := Except.ok (some cnx), sleeps := [] }
    | none =>
        if attempt = attempts then { result := Except.ok none, sleeps := [] }
        else
          let rest := connectLoopIntended connector attempts delay (attempt + 1)
          { result := rest.result, sleeps := delay ^ attempt :: rest.sleeps }
  else { result := Except.ok none, sleeps := [] }
  termination_by attempts + 1 - attempt
  decreasing_by omega

/-- The intended connect_to_mysql, starting at attempt 1. -/
def connectIntended (connector : Nat → Option C) (attempts delay : Nat) :
    ConnectOutcome C :=
  connectLoopIntended connector attempts delay 1

/-! ## Orchestrator (lambda_handler, lines 184-213) -/

/-- The response dictionary built by lambda_handler. -/
structure Response where
  statusCode : Nat
  body : String
  deriving Repr, DecidableEq

/-- The outcomes of the four pipeline steps as lambda_handler observes
them: each of the called functions either raises (Except.error) or
returns. connect yields an optional connection; insert and close run on
the obtained connection. -/
structure StepOutcomes (V E C : Type) where
  fetch : Except E (List (QuoteRecord V))
  save : List (QuoteRecord V) → Except E Unit
  connect : Except E (Option C)
  insert : C → List (QuoteRecord V) → Except E Unit
  closeConn : C → Except E Unit

/-- lambda_handler (lines 184-213): run fetch, archive, connect in
sequence; on a usable connection insert, close and return the
statusCode 200 body; when connect returns None the try block falls
through its final if and the function implicitly returns Python None
(modelled as Except.ok none); the except clause re-raises every
exception unchanged, so a raising step yields Except.error with that
exception. -/
def lambda_handler (s : StepOutcomes V E C) : Except E (Option Response) :=
  match s.fetch with
  | Except.error e => Except.error e
  | Except.ok data =>
      match s.save data with
      | Except.error e => Except.error e
      | Except.ok _ =>
          match s.connect with
          | Except.error e => Except.error e
          | Except.ok none => Except.ok none
          | Except.ok (some cnx) =>
              match s.insert cnx data with
              | Except.error e => Except.error e
              | Except.ok _ =>
                  match s.closeConn cnx with
                  | Except.error e => Except.error e
                  | Except.ok _ =>
                      Except.ok (some (Response.mk 200
                        "\"Data scrapped successfully!\""))

/-! ## Run state for the frame property -/

/-- The in-process state of one run: the fetched record collection plus
the accumulated external effects (objects put to s3, operations sent to
the database). -/
structure RunState (V : Type) where
  data : List (QuoteRecord V)
  s3 : List PutObject
  db : List (DbOp V)
  deriving Repr, DecidableEq

/-- save_in_bucket acting on the run state: it reads the records, emits
one put_object, and leaves the records as it found them (the code only
calls to_csv on the frame). -/
def saveInBucketStep (bucket : String) (now : Datetime) (fmt : V → String)
    (st : RunState V) : RunState V :=
  { st with s3 := st.s3 ++ [save_in_bucket bucket now fmt st.data] }

/-- insert_data acting on the run state: it iterates over the rows,
emits the execute/commit/close trace, and leaves the records as it found
them (iterrows only reads). -/
def insertDataStep (table : String) (st : RunState V) : RunState V :=
  { st with db := st.db ++ insert_data table st.data }

/-! ## Concrete scenarios used by witnesses -/

/-- A demo quote provider: one bar for BTC-USD, nothing for anything
else. -/
def demoProvider : String → Option (Bar Nat) :=
  fun s => if s = "BTC-USD" then some (Bar.mk 11 42 7) else none

/-- A demo connector that fails on attempts 1 and 2 and succeeds on
attempt 3 (the spec's fails-twice-then-succeeds scenario). -/
def failTwiceConnector : Nat → Option Unit :=
  fun n => if n ≤ 2 then none else some ()

/-- A demo connector that fails on every attempt. -/
def alwaysFailConnector : Nat → Option Unit := fun _ => none

/-- A demo record collection. -/
def demoRecords : List (QuoteRecord Nat) :=
  [QuoteRecord.mk 11 42 7 "BTC-USD", QuoteRecord.mk 12 35 9 "ETH-USD"]

/-- A demo record collection whose cells are already text. -/
def demoStrRecords : List (QuoteRecord String) :=
  [QuoteRecord.mk "2024-01-01" "42735.5" "123456" "BTC-USD",
   QuoteRecord.mk "2024-01-01" "2280.1" "654321" "ETH-USD"]

/-- Step outcomes in which every step succeeds and connect yields no
usable connection (retries exhausted). -/
def stepsNoConnection : StepOutcomes Nat Nat Unit :=
  { fetch := Except.ok demoRecords, save := fun _ => Except.ok (),
    connect := Except.ok none, insert := fun _ _ => Except.ok (),
    closeConn := fun _ => Except.ok () }

/-- Step outcomes in which the fetch step raises. -/
def stepsFetchFails : StepOutcomes Nat Nat Unit :=
  { stepsNoConnection with fetch := Except.error 7 }

/-- Step outcomes in which the archive step raises. -/
def stepsSaveFails : StepOutcomes Nat Nat Unit :=
  { stepsNoConnection with save := fun _ => Except.error 8 }

/-- Step outcomes in which the connect step raises. -/
def stepsConnectFails : StepOutcomes Nat Nat Unit :=
  { stepsNoConnection with connect := Except.error 9 }

/-- Step outcomes in which a connection is obtained and the insert step
raises. -/
def stepsInsertFails : StepOutcomes Nat Nat Unit :=
  { stepsNoConnection with
    connect := Except.ok (some ()),
    insert := fun _ _ => Except.error 10 }

/-- Step outcomes in which a connection is obtained, insert succeeds and
the final cnx.close() raises. -/
def stepsCloseFails : StepOutcomes Nat Nat Unit :=
  { stepsNoConnection with
    connect := Except.ok (some ()),
    closeConn := fun _ => Except.error 11 }

/-- Step outcomes in which every step succeeds on a usable connection. -/
def stepsAllOk : StepOutcomes Nat Nat Unit :=
  { stepsNoConnection with connect := Except.ok (some ()) }

end LambdaFn

/-! ## Helper lemmas (shared) -/

namespace LambdaFn

/-- insertRows is the map of the execute operation over the rows. -/
theorem insertRows_eq_map (query : String) (rs : List (QuoteRecord V)) :
    insertRows query rs = rs.map fun r => DbOp.execute query (bindOf r) := by
  induction rs with
  | nil => rfl
  | cons r rest ih => simp [insertRows, ih]

/-- Keys of a dict after insertion: an existing key leaves the key list
unchanged, a new key is appended. -/
theorem dictInsert_keys (k : String) (v : α) (d : List (String × α)) :
    (dictInsert k v d).map Prod.fst =
      if k ∈ d.map Prod.fst then d.map Prod.fst
      else d.map Prod.fst ++ [k] := by
  induction d with
  | nil => simp [dictInsert]
  | cons p rest ih =>
      obtain ⟨k₁, v₁⟩ := p
      by_cases hk : k₁ = k
      · subst hk; simp [dictInsert]
      · have hk2 : ¬k = k₁ := fun h => hk h.symm
        simp only [dictInsert, if_neg hk, List.map_cons, ih, List.mem_cons,
          hk2, false_or]
        by_cases hmem : k ∈ rest.map Prod.fst
        · simp [hmem]
        · simp [hmem]

/-- Membership after dict insertion: an entry is the inserted pair or was
already present. -/
theorem dictInsert_mem {p : String × α} (k : String) (v : α)
    (d : List (String × α)) (hp : p ∈ dictInsert k v d) :
    p = (k, v) ∨ p ∈ d := by
  induction d with
  | nil => simpa [dictInsert] using hp
  | cons q rest ih =>
      obtain ⟨k₁, v₁⟩ := q
      by_cases hk : k₁ = k
      · subst hk
        simp only [dictInsert, if_pos rfl] at hp
        rcases List.mem_cons.mp hp with h | h
        · exact Or.inl h
        · exact Or.inr (List.mem_cons_of_mem _ h)
      · simp only [dictInsert, if_neg hk] at hp
        rcases List.mem_cons.mp hp with h | h
        · exact Or.inr (by rw [h]; exact List.mem_cons_self _ _)
        · rcases ih h with h2 | h2
          · exact Or.inl h2
          · exact Or.inr (List.mem_cons_of_mem _ h2)

/-- Every entry of the dict built by the fetch loop stores the fetch
result for its own key. -/
theorem framesByMoneda_invariant {V : Type}
    (provider : String → Option (Bar V)) (ts : List String) :
    ∀ p ∈ framesByMoneda provider ts, p.2 = fetchTicker provider p.1 := by
  suffices h : ∀ (ts : List String) (d : List (String × Option (QuoteRecord V))),
      (∀ p ∈ d, p.2 = fetchTicker provider p.1) →
      ∀ p ∈ ts.foldl (fun d m => dictInsert m (fetchTicker provider m) d) d,
        p.2 = fetchTicker provider p.1 by
    exact h ts [] (by simp)
  intro ts
  induction ts with
  | nil => intro d hd; simpa using hd
  | cons t rest ih =>
      intro d hd
      refine ih (dictInsert t (fetchTicker provider t) d) ?_
      intro p hp
      rcases dictInsert_mem t (fetchTicker provider t) d hp with h | h
      · rw [h]
      · exact hd p h

/-- The key list of the dict built by the fetch loop extends the starting
key list by a subsequence of the processed tickers. -/
theorem foldl_dictInsert_keys {V : Type}
    (provider : String → Option (Bar V)) (ts : List String) :
    ∀ d : List (String × Option (QuoteRecord V)),
      ∃ u, u.Sublist ts ∧
        (ts.foldl (fun d m => dictInsert m (fetchTicker provider m) d) d).map
            Prod.fst = d.map Prod.fst ++ u := by
  induction ts with
  | nil => intro d; exact ⟨[], List.Sublist.refl _, by simp⟩
  | cons t rest ih =>
      intro d
      obtain ⟨u, hu, hkeys⟩ := ih (dictInsert t (fetchTicker provider t) d)
      rw [dictInsert_keys] at hkeys
      by_cases hmem : t ∈ d.map Prod.fst
      · exact ⟨u, List.Sublist.cons t hu,
          by simpa [List.foldl_cons, if_pos hmem] using hkeys⟩
      · refine ⟨t :: u, List.Sublist.cons₂ t hu, ?_⟩
        simpa [List.foldl_cons, if_neg hmem, List.append_assoc] using hkeys

/-- The symbol column of the concatenated dict values is a subsequence of
the dict's key list, provided each stored record carries its key as its
moneda. -/
theorem values_moneda_sublist {V : Type}
    (d : List (String × Option (QuoteRecord V)))
    (hd : ∀ p ∈ d, ∀ r, p.2 = some r → r.moneda = p.1) :
    (((d.map Prod.snd).filterMap id).map QuoteRecord.moneda).Sublist
      (d.map Prod.fst) := by
  induction d with
  | nil => simp
  | cons p rest ih =>
      obtain ⟨k, v⟩ := p
      have hrest := ih fun q hq r hr => hd q (List.mem_cons_of_mem _ hq) r hr
      cases hv : v with
      | none => simpa [hv] using hrest.cons k
      | some r =>
          have hr : r.moneda = k :=
            hd (k, v) (List.mem_cons_self _ _) r (by rw [hv])
          simpa [hv, hr] using hrest.cons₂ k

/-- Splitting never yields the empty fragment list. -/
theorem splitOnSep_ne_nil (c : Char) (l : List Char) : splitOnSep c l ≠ [] := by
  induction l with
  | nil => simp [splitOnSep]
  | cons x xs ih =>
      by_cases hx : x = c
      · simp [splitOnSep, hx]
      · simp only [splitOnSep, if_neg hx]
        cases h : splitOnSep c xs with
        | nil => simp
        | cons y ys => simp

/-- Splitting a separator-free list yields that list as the only
fragment. -/
theorem splitOnSep_no_sep (c : Char) (a : List Char)
    (h : ∀ x ∈ a, x ≠ c) : splitOnSep c a = [a] := by
  induction a with
  | nil => rfl
  | cons x xs ih =>
      have hx : x ≠ c := h x (List.mem_cons_self _ _)
      have hxs := ih fun y hy => h y (List.mem_cons_of_mem _ hy)
      simp [splitOnSep, if_neg hx, hxs]

/-- Splitting a list that starts with a separator-free prefix followed by
a separator peels off that prefix as the first fragment. -/
theorem splitOnSep_append (c : Char) (a b : List Char)
    (h : ∀ x ∈ a, x ≠ c) :
    splitOnSep c (a ++ c :: b) = a :: splitOnSep c b := by
  induction a with
  | nil => simp [splitOnSep]
  | cons x xs ih =>
      have hx : x ≠ c := h x (List.mem_cons_self _ _)
      have hxs := ih fun y hy => h y (List.mem_cons_of_mem _ hy)
      simp [splitOnSep, if_neg hx, hxs]

/-- Splitting a concatenation of separator-terminated separator-free
fragments recovers the fragments, plus the empty tail fragment after the
final separator. -/
theorem splitOnSep_terminated (c : Char) (ls : List (List Char))
    (h : ∀ l ∈ ls, ∀ x ∈ l, x ≠ c) :
    splitOnSep c ((ls.map fun l => l ++ [c]).flatten) = ls ++ [[]] := by
  induction ls with
  | nil => rfl
  | cons l rest ih =>
      have hl := h l (List.mem_cons_self _ _)
      have hrest := ih fun m hm => h m (List.mem_cons_of_mem _ hm)
      have hshape : (((l :: rest).map fun l => l ++ [c]).flatten : List Char)
          = l ++ c :: ((rest.map fun l => l ++ [c]).flatten) := by
        simp
      rw [hshape, splitOnSep_append c l _ hl, hrest]
      rfl

/-- A character of a joined field list is the separator or a character of
one of the fields. -/
theorem mem_joinSep (c : Char) (fs : List (List Char)) (x : Char)
    (hx : x ∈ joinSep c fs) : x = c ∨ ∃ f ∈ fs, x ∈ f := by
  induction fs with
  | nil => cases hx
  | cons f rest ih =>
      cases rest with
      | nil => exact Or.inr ⟨f, List.mem_cons_self _ _, by simpa [joinSep] using hx⟩
      | cons g rest2 =>
          rw [show joinSep c (f :: g :: rest2) = f ++ c :: joinSep c (g :: rest2)
            from rfl] at hx
          rcases List.mem_append.mp hx with h1 | h1
          · exact Or.inr ⟨f, List.mem_cons_self _ _, h1⟩
          · rcases List.mem_cons.mp h1 with h2 | h2
            · exact Or.inl h2
            · rcases ih h2 with h3 | ⟨f2, hf2, hxf2⟩
              · exact Or.inl h3
              · exact Or.inr ⟨f2, List.mem_cons_of_mem _ hf2, hxf2⟩

/-- Splitting at the separator undoes joining with the separator, for a
non-empty separator-free field list. -/
theorem splitOnSep_joinSep (c : Char) (fs : List (List Char)) (hne : fs ≠ [])
    (h : ∀ f ∈ fs, ∀ x ∈ f, x ≠ c) :
    splitOnSep c (joinSep c fs) = fs := by
  induction fs with
  | nil => cases hne rfl
  | cons f rest ih =>
      cases rest with
      | nil => simp [joinSep, splitOnSep_no_sep c f (h f (List.mem_cons_self _ _))]
      | cons g rest2 =>
          have hf := h f (List.mem_cons_self _ _)
          have hrest := ih (by simp) fun m hm => h m (List.mem_cons_of_mem _ hm)
          rw [show joinSep c (f :: g :: rest2) = f ++ c :: joinSep c (g :: rest2)
            from rfl, splitOnSep_append c f _ hf, hrest]

/-- Rebuilding a string from its character list is the identity. -/
theorem stringMk_toList (s : String) : String.mk s.toList = s := rfl

/-- Unpacking fieldClean into its two character-level disequalities. -/
theorem fieldClean_spec {f : String} (h : fieldClean f = true) :
    ∀ x ∈ f.toList, x ≠ ',' ∧ x ≠ '\n' := by
  intro x hx
  have h2 := List.all_eq_true.mp h x hx
  simpa using h2

/-- Parsing one serialized CSV line recovers its fields, for a non-empty
clean field list. -/
theorem parse_line (fl : List String) (hne : fl ≠ [])
    (hcl : fl.all fieldClean = true) :
    (splitOnSep ',' (joinSep ',' (fl.map String.toList))).map String.mk = fl := by
  rw [splitOnSep_joinSep ',' (fl.map String.toList) (by simpa using hne) ?_]
  · rw [List.map_map]
    have hid : (String.mk ∘ String.toList) = id := funext fun s => stringMk_toList s
    rw [hid, List.map_id]
  · intro f hf x hxf
    rcases List.mem_map.mp hf with ⟨s, hs, hsf⟩
    have hclean := List.all_eq_true.mp hcl s hs
    rcases fieldClean_spec hclean x (by rw [hsf]; exact hxf) with ⟨hc, _⟩
    exact hc

/-- The character list of the serialized CSV is the newline-terminated
concatenation of the joined header line and the joined row lines. -/
theorem toCsv_toList {V : Type} (fmt : V → String) (rs : List (QuoteRecord V)) :
    (toCsv fmt rs).toList =
      (((csvHeader :: rs.map (rowFields fmt)).map fun fl =>
        joinSep ',' (fl.map String.toList)).map fun l => l ++ ['\n']).flatten := by
  simp [toCsv, csvLine, List.map_map, Function.comp_def]

/-- The last fragment of a list extended by one element. -/
theorem getLast?_append_singleton (l : List α) (a : α) :
    (l ++ [a]).getLast? = some a := by
  induction l with
  | nil => rfl
  | cons x xs ih =>
      cases hxs : xs ++ [a] with
      | nil => simp at hxs
      | cons y ys =>
          rw [List.cons_append, hxs, List.getLast?_cons_cons, ← hxs, ih]

/-- Round trip of the Archiver's serialization: parsing the CSV text back
recovers exactly the textual field rows, for clean field values. -/
theorem parseCsv_toCsv {V : Type} (fmt : V → String)
    (rs : List (QuoteRecord V)) (h : recordsClean fmt rs = true) :
    parseCsv (toCsv fmt rs) = rs.map (rowFields fmt) := by
  have hclean : ∀ fl ∈ csvHeader :: rs.map (rowFields fmt),
      fl.all fieldClean = true := by
    intro fl hfl
    rcases List.mem_cons.mp hfl with hfl | hfl
    · rw [hfl]; decide
    · rcases List.mem_map.mp hfl with ⟨r, hr, hrow⟩
      rw [← hrow]
      exact List.all_eq_true.mp h r hr
  have hlines : ∀ l ∈ (csvHeader :: rs.map (rowFields fmt)).map fun fl =>
      joinSep ',' (fl.map String.toList), ∀ x ∈ l, x ≠ '\n' := by
    intro l hl x hxl
    rcases List.mem_map.mp hl with ⟨fl, hfl, hjoin⟩
    rcases mem_joinSep ',' _ x (by rw [hjoin]; exact hxl) with hx | ⟨f, hf, hxf⟩
    · rw [hx]; decide
    · rcases List.mem_map.mp hf with ⟨s, hs, hsf⟩
      have hcf := List.all_eq_true.mp (hclean fl hfl) s hs
      exact (fieldClean_spec hcf x (by rw [hsf]; exact hxf)).2
  unfold parseCsv
  rw [toCsv_toList, splitOnSep_terminated '\n' _ hlines,
    getLast?_append_singleton]
  simp only [eq_self_iff_true, if_true, if_pos rfl, List.dropLast_concat,
    List.map_cons, List.drop_succ_cons, List.drop_zero, List.map_map]
  refine List.map_congr_left fun r hr => ?_
  have := parse_line (rowFields fmt r) (by simp [rowFields])
    (List.all_eq_true.mp h r hr)
  simpa [Function.comp] using this

/-- A fetched record carries the ticker it was fetched for. -/
theorem fetchTicker_moneda {V : Type} (provider : String → Option (Bar V))
    (k : String) (r : QuoteRecord V) (h : fetchTicker provider k = some r) :
    r.moneda = k := by
  unfold fetchTicker at h
  cases hp : provider k with
  | none => rw [hp] at h; cases h
  | some b => rw [hp] at h; cases h; rfl

/-! ## Claim theorems -/

/-- Claim C1 (code_bug evaluation): in a run where fetch and archive
succeed and the connection step yields no usable connection,
lambda_handler returns Except.ok none — the Python function falls out of
its try block without hitting a return statement and so implicitly
returns None, not the statusCode 200 dictionary that its own type
annotation, docstring and the spec promise. -/
theorem lambda_handler_no_connection_returns_none :
    lambda_handler stepsNoConnection = Except.ok none := rfl

/-- Claim C2 (code_bug evaluation): with the default attempts = 3 and
delay = 2 and a connector that fails twice then succeeds, the code's
connect_to_mysql raises NameError (the retry log f-string at line 109
reads the undefined name attemps) before the first sleep ever runs, and
performs no sleeps; the retry loop as specified (connectIntended, the
section 9 intended reading) would instead return the connection after
backoff sleeps of 2 and 4, and with an always-failing connector would
return none after sleeps 2 and 4 with no sleep after the final failure. -/
theorem connect_to_mysql_retry_evaluation :
    (connect_to_mysql failTwiceConnector defaultAttempts defaultDelay).result
        = Except.error (PyError.nameError "attemps") ∧
    (connect_to_mysql failTwiceConnector defaultAttempts defaultDelay).sleeps = [] ∧
    (connectIntended failTwiceConnector defaultAttempts defaultDelay).result
        = Except.ok (some ()) ∧
    (connectIntended failTwiceConnector defaultAttempts defaultDelay).sleeps = [2, 4] ∧
    (connectIntended alwaysFailConnector defaultAttempts defaultDelay).result
        = Except.ok none ∧
    (connectIntended alwaysFailConnector defaultAttempts defaultDelay).sleeps = [2, 4] := by
  refine ⟨rfl, rfl, ?_, ?_, ?_, ?_⟩ <;>
    simp [connectIntended, connectLoopIntended, failTwiceConnector,
      alwaysFailConnector, defaultAttempts, defaultDelay]

/-- Claim C4: every error raised by a pipeline step (fetch, archive,
connect, insert, or the final close) propagates out of lambda_handler
unchanged as a failure, and every response lambda_handler does construct
carries statusCode 200. -/
theorem lambda_handler_error_propagation {V E C : Type} (s : StepOutcomes V E C) :
    (∀ e, s.fetch = Except.error e → lambda_handler s = Except.error e) ∧
    (∀ e data, s.fetch = Except.ok data → s.save data = Except.error e →
      lambda_handler s = Except.error e) ∧
    (∀ e data, s.fetch = Except.ok data → s.save data = Except.ok () →
      s.connect = Except.error e → lambda_handler s = Except.error e) ∧
    (∀ e data cnx, s.fetch = Except.ok data → s.save data = Except.ok () →
      s.connect = Except.ok (some cnx) → s.insert cnx data = Except.error e →
      lambda_handler s = Except.error e) ∧
    (∀ e data cnx, s.fetch = Except.ok data → s.save data = Except.ok () →
      s.connect = Except.ok (some cnx) → s.insert cnx data = Except.ok () →
      s.closeConn cnx = Except.error e → lambda_handler s = Except.error e) ∧
    (∀ r, lambda_handler s = Except.ok (some r) → r.statusCode = 200) := by
  refine ⟨?_, ?_, ?_, ?_, ?_, ?_⟩
  · intro e h; simp [lambda_handler, h]
  · intro e data h1 h2; simp [lambda_handler, h1, h2]
  · intro e data h1 h2 h3; simp [lambda_handler, h1, h2, h3]
  · intro e data cnx h1 h2 h3 h4; simp [lambda_handler, h1, h2, h3, h4]
  · intro e data cnx h1 h2 h3 h4 h5; simp [lambda_handler, h1, h2, h3, h4, h5]
  · intro r h
    unfold lambda_handler at h
    repeat' split at h
    all_goals try simp_all
    all_goals (cases h; rfl)

/-- Claim C4 witness: each propagation clause of
lambda_handler_error_propagation at a concrete scenario, and the 200
clause at the all-success scenario. -/
theorem lambda_handler_error_propagation_witness :
    lambda_handler stepsFetchFails = Except.error 7 ∧
    lambda_handler stepsSaveFails = Except.error 8 ∧
    lambda_handler stepsConnectFails = Except.error 9 ∧
    lambda_handler stepsInsertFails = Except.error 10 ∧
    lambda_handler stepsCloseFails = Except.error 11 ∧
    (Response.mk 200 "\"Data scrapped successfully!\"").statusCode = 200 :=
  ⟨(lambda_handler_error_propagation stepsFetchFails).1 7 rfl,
   (lambda_handler_error_propagation stepsSaveFails).2.1 8 demoRecords rfl rfl,
   (lambda_handler_error_propagation stepsConnectFails).2.2.1 9 demoRecords rfl rfl rfl,
   (lambda_handler_error_propagation stepsInsertFails).2.2.2.1 10 demoRecords ()
     rfl rfl rfl rfl,
   (lambda_handler_error_propagation stepsCloseFails).2.2.2.2.1 11 demoRecords ()
     rfl rfl rfl rfl rfl,
   (lambda_handler_error_propagation stepsAllOk).2.2.2.2.2
     (Response.mk 200 "\"Data scrapped successfully!\"") rfl⟩

/-- Claim C5: the object-storage key written by save_in_bucket is the
calendar day before the wall-clock time at which the Archiver runs,
formatted %Y-%m-%d with suffix .csv, and it does not depend on the
records being archived. -/
theorem save_in_bucket_key_is_yesterday {V : Type} (bucket : String)
    (now : Datetime) (fmt : V → String) (rs rs2 : List (QuoteRecord V)) :
    (save_in_bucket bucket now fmt rs).key
        = strftimeYmd (subOneDay now) ++ ".csv" ∧
    (save_in_bucket bucket now fmt rs).key
        = (save_in_bucket bucket now fmt rs2).key :=
  ⟨rfl, rfl⟩

/-- Claim C7: insert_data sends to the connection exactly one
parameterized execute per record, in collection order, binding the values
as (date, symbol, price, volume) = (fecha, moneda, cotizacion, volumen),
then exactly one commit after all inserts, and then closes the cursor. -/
theorem insert_data_trace {V : Type} (table : String)
    (rs : List (QuoteRecord V)) :
    insert_data table rs =
      (rs.map fun r => DbOp.execute (insertQuery table)
        (r.fecha, r.moneda, r.cotizacion, r.volumen)) ++
      [DbOp.commit, DbOp.closeCursor] := by
  simp [insert_data, insertRows_eq_map, bindOf]

/-- Claim C9: the record collection produced by the Fetcher flows
unmodified through the Archiver and the Database Writer: running
save_in_bucket and then insert_data on the run state leaves the data
component exactly as get_market_value produced it. -/
theorem records_flow_unmodified {V : Type}
    (provider : String → Option (Bar V)) (bucket table : String)
    (now : Datetime) (fmt : V → String) (s3 : List PutObject)
    (db : List (DbOp V)) :
    (insertDataStep table (saveInBucketStep bucket now fmt
        (RunState.mk (get_market_value provider) s3 db))).data
      = get_market_value provider ∧
    (saveInBucketStep bucket now fmt
        (RunState.mk (get_market_value provider) s3 db)).data
      = get_market_value provider :=
  ⟨rfl, rfl⟩

/-- Claim C6: for every non-empty symbol list, the fetch pipeline yields
at most one record per input symbol, every output record's moneda is one
of the input symbols, and the output records keep the relative order of
their symbols in the input list (the symbol column is a subsequence of
the input); symbols with an empty provider result contribute no record. -/
theorem fetcher_output_shape {V : Type} (provider : String → Option (Bar V))
    (ts : List String) (hne : ts ≠ []) :
    (getMarketValueFrom provider ts).length ≤ ts.length ∧
    (∀ r ∈ getMarketValueFrom provider ts, r.moneda ∈ ts) ∧
    ((getMarketValueFrom provider ts).map QuoteRecord.moneda).Sublist ts := by
  have hinv := framesByMoneda_invariant provider ts
  have hmon : ∀ p ∈ framesByMoneda provider ts, ∀ r : QuoteRecord V,
      p.2 = some r → r.moneda = p.1 := by
    intro p hp r hr
    rw [hinv p hp] at hr
    exact fetchTicker_moneda provider p.1 r hr
  have hsub1 := values_moneda_sublist (framesByMoneda provider ts) hmon
  obtain ⟨u, hu, hkeys⟩ := foldl_dictInsert_keys provider ts []
  have hkeys2 : (framesByMoneda provider ts).map Prod.fst = u := by
    simpa [framesByMoneda] using hkeys
  rw [hkeys2] at hsub1
  have hsub : ((getMarketValueFrom provider ts).map QuoteRecord.moneda).Sublist ts := by
    exact List.Sublist.trans (by simpa [getMarketValueFrom] using hsub1) hu
  refine ⟨?_, ?_, hsub⟩
  · simpa using hsub.length_le
  · intro r hr
    exact hsub.subset (List.mem_map_of_mem _ hr)

/-- Claim C6 witness: the fetcher shape properties at a concrete provider
and a concrete two-symbol list. -/
theorem fetcher_output_shape_witness :
    (["BTC-USD", "ETH-USD"] : List String) ≠ [] ∧
    ((getMarketValueFrom demoProvider ["BTC-USD", "ETH-USD"]).length ≤
        (["BTC-USD", "ETH-USD"] : List String).length ∧
      (∀ r ∈ getMarketValueFrom demoProvider ["BTC-USD", "ETH-USD"],
        r.moneda ∈ (["BTC-USD", "ETH-USD"] : List String)) ∧
      ((getMarketValueFrom demoProvider ["BTC-USD", "ETH-USD"]).map
          QuoteRecord.moneda).Sublist ["BTC-USD", "ETH-USD"]) :=
  ⟨by decide, fetcher_output_shape demoProvider ["BTC-USD", "ETH-USD"] (by decide)⟩

/-- Claim C10: get_market_value takes no symbol-list input; its ticker
list is the hard-coded five-element list, in that order, so every run
requests exactly these five instruments. -/
theorem get_market_value_fixed_tickers :
    tickers = ["BTC-USD", "ETH-USD", "^GSPC", "^IXIC", "GC=F"] ∧
    ∀ (V : Type) (provider : String → Option (Bar V)),
      get_market_value provider = getMarketValueFrom provider tickers :=
  ⟨rfl, fun _ _ => rfl⟩

/-- Claim C8: parsing the archived CSV back as delimited text yields the
same sequence of record values as the input collection, modulo the
textual formatting of the value cells: each parsed row is exactly the
formatted fields of the corresponding record, and rebuilding records
from the parsed rows gives back the rendered records. -/
theorem csv_round_trip {V : Type} (fmt : V → String)
    (rs : List (QuoteRecord V)) (h : recordsClean fmt rs = true) :
    parseCsv (toCsv fmt rs) = rs.map (rowFields fmt) ∧
    (parseCsv (toCsv fmt rs)).map recordOfRow = rs.map (renderRecord fmt) := by
  have h1 := parseCsv_toCsv fmt rs h
  refine ⟨h1, ?_⟩
  rw [h1, List.map_map]
  have hcomp : recordOfRow ∘ rowFields fmt = renderRecord fmt :=
    funext fun r => rfl
  rw [hcomp]

/-- Claim C8 witness: the round trip at a concrete two-record
collection. -/
theorem csv_round_trip_witness :
    recordsClean id demoStrRecords = true ∧
    (parseCsv (toCsv id demoStrRecords) = demoStrRecords.map (rowFields id) ∧
      (parseCsv (toCsv id demoStrRecords)).map recordOfRow =
        demoStrRecords.map (renderRecord id)) :=
  ⟨by decide, csv_round_trip id demoStrRecords (by decide)⟩

/-- Claim C3 counterexample: for the record with fecha D, cotizacion P,
volumen V, moneda S, the archived CSV row lists the values in the order
(date, price, volume, symbol) = (D, P, V, S), which differs from the
claimed order (date, symbol, price, volume) = (D, S, P, V); so the
archived file does not use the claimed field order. -/
theorem csv_claimed_column_order_fails :
    parseCsv (toCsv id [QuoteRecord.mk "D" "P" "V" "S"]) = [["D", "P", "V", "S"]] ∧
    (([["D", "P", "V", "S"]] : List (List String)) ==
      [["D", "S", "P", "V"]]) = false := by
  decide

/-- Claim C3 amended: in the database insert the bound value order is
(date, symbol, price, volume) = (fecha, moneda, cotizacion, volumen),
while the archived CSV lists each record's values in the column order
(date, price, volume, symbol) = (fecha, cotizacion, volumen, moneda). -/
theorem field_orders_amended {V : Type} (table : String) (fmt : V → String)
    (r : QuoteRecord V) (h : recordsClean fmt [r] = true) :
    insert_data table [r] =
      [DbOp.execute (insertQuery table)
        (r.fecha, r.moneda, r.cotizacion, r.volumen),
       DbOp.commit, DbOp.closeCursor] ∧
    parseCsv (toCsv fmt [r]) =
      [[fmt r.fecha, fmt r.cotizacion, fmt r.volumen, r.moneda]] := by
  constructor
  · rfl
  · have h2 := parseCsv_toCsv fmt [r] h
    simpa [rowFields] using h2

/-- Claim C3 amended witness: the two field orders at a concrete
record. -/
theorem field_orders_amended_witness :
    recordsClean id [QuoteRecord.mk "2024-01-01" "42735.5" "123456" "GC=F"] = true ∧
    (insert_data "market_data" [QuoteRecord.mk "2024-01-01" "42735.5" "123456" "GC=F"] =
      [DbOp.execute (insertQuery "market_data")
        ("2024-01-01", "GC=F", "42735.5", "123456"),
       DbOp.commit, DbOp.closeCursor] ∧
    parseCsv (toCsv id [QuoteRecord.mk "2024-01-01" "42735.5" "123456" "GC=F"]) =
      [["2024-01-01", "42735.5", "123456", "GC=F"]]) :=
  ⟨by decide, field_orders_amended "market_data" id
    (QuoteRecord.mk "2024-01-01" "42735.5" "123456" "GC=F") (by decide)⟩

end LambdaFn
